import Mathlib

/-!
Shallow embedding of the apartment inverted-index search engine
(`src/apartment.py`, class `ApartmentDatabase`), together with proofs of the
spec's testable properties.

Modelling conventions:
* A JSON scalar that can appear in a record field or a search criterion is a
  `Value` (integer or string).
* A raw input record (one JSON object of the input file) is a `RawRecord`:
  each of the five required keys is present (`some v`) or absent (`none`);
  extra keys are irrelevant to the loader and are not modelled.
* Python's `int(x)` coercion is `pyInt`: an `int` is returned as is, a string
  is parsed as an optional sign followed by decimal digits; any failure
  (`ValueError`) and a missing key (`KeyError`) abort the load, modelled as
  `none`.  The spec calls these aborts `ValidationError` collectively.
* The JSON file parsing itself is an excluded collaborator; `load_from_file`
  here consumes the already-parsed sequence of raw records.
* Python `set` values are `Finset Nat`; dicts are association lists in
  insertion order; `sorted(...)` is `Finset.sort (· ≤ ·)`.
* List indexing `self._apartments[i]` can raise `IndexError`; record
  materialization therefore returns `Option (List Apartment)`, `none`
  standing for that exception.
-/

namespace InvIdx

/-- A JSON scalar value: an integer or a string. -/
inductive Value where
  | vint : Int → Value
  | vstr : String → Value
deriving DecidableEq, Repr

/-- An apartment record as stored by the engine: the four integer fields have
been through `int(...)` coercion; `metro` is stored exactly as it appeared in
the input (the source applies no check to it). -/
structure Apartment where
  total_area : Int
  rooms : Int
  kitchen_area : Int
  balconies : Int
  metro : Value
deriving DecidableEq, Repr

/-- A raw input record: for each of the five required keys, the value found in
the JSON object, or `none` when the key is missing. -/
structure RawRecord where
  total_area : Option Value
  rooms : Option Value
  kitchen_area : Option Value
  balconies : Option Value
  metro : Option Value
deriving DecidableEq, Repr

/-- Decimal digit-string value, `none` when empty or containing a non-digit. -/
def digitsToNat : List Char → Option Nat
  | [] => none
  | cs =>
    if cs.all Char.isDigit then
      some (cs.foldl (fun acc c => 10 * acc + (c.toNat - 48)) 0)
    else none

/-- Models Python's `int` builtin applied to a string: an optional sign
followed by decimal digits (whitespace/underscore refinements of the builtin
are not modelled; no claim depends on them). -/
def pyParseInt (s : String) : Option Int :=
  match s.data with
  | '-' :: cs => (digitsToNat cs).map (fun n => -(n : Int))
  | '+' :: cs => (digitsToNat cs).map (fun n => (n : Int))
  | cs => (digitsToNat cs).map (fun n => (n : Int))

/-- Models Python's `int` builtin on a JSON scalar. -/
def pyInt : Value → Option Int
  | .vint n => some n
  | .vstr s => pyParseInt s

/-- `int(apt_data[key])`: `KeyError` when the key is missing, else coercion. -/
def pyIntField : Option Value → Option Int
  | none => none
  | some v => pyInt v

/-- The record construction inside the loop of `load_from_file`: the four
integer fields go through `int(...)`; `metro` is `apt_data['metro']`, taken
as-is (even an empty string or a non-string value is accepted). `none` models
the `KeyError`/`ValueError` that aborts the load. -/
def coerceRecord (r : RawRecord) : Option Apartment := do
  let ta ← pyIntField r.total_area
  let ro ← pyIntField r.rooms
  let ka ← pyIntField r.kitchen_area
  let ba ← pyIntField r.balconies
  let me ← r.metro
  pure ⟨ta, ro, ka, ba, me⟩

/-- One inverted-index table: a dict from attribute value to the set of
positional identifiers, kept in insertion order. -/
abbrev Table := List (Value × Finset Nat)

/-- The five inverted indices of `ApartmentDatabase._indices`. -/
structure Indices where
  total_area : Table
  rooms : Table
  kitchen_area : Table
  balconies : Table
  metro : Table
deriving DecidableEq

/-- The engine state: `self._apartments` plus `self._indices`. -/
structure DB where
  apartments : List Apartment
  indices : Indices
deriving DecidableEq

/-- A fresh `ApartmentDatabase()`: empty store, five empty indices. -/
def emptyDB : DB := ⟨[], ⟨[], [], [], [], []⟩⟩

/-- Dict lookup in an association-list table (`index.get(value)`). -/
def assocFind {β : Type} (k : Value) : List (Value × β) → Option β
  | [] => none
  | (k', b) :: rest => if k' = k then some b else assocFind k rest

/-- `ApartmentDatabase._add_to_index` on one table: create the value's bucket
if absent, then add the apartment's positional identifier to it. -/
def add_to_index (tbl : Table) (key : Value) (apartment_index : Nat) : Table :=
  match tbl with
  | [] => [(key, {apartment_index})]
  | (k', s) :: rest =>
    if k' = key then (k', insert apartment_index s) :: rest
    else (k', s) :: add_to_index rest key apartment_index

/-- `ApartmentDatabase._add_apartment`: append the record at the next
position and insert that position into all five indices. -/
def add_apartment (db : DB) (apt : Apartment) : DB :=
  let apartment_index := db.apartments.length
  { apartments := db.apartments ++ [apt]
    indices :=
      { total_area := add_to_index db.indices.total_area (.vint apt.total_area) apartment_index
        rooms := add_to_index db.indices.rooms (.vint apt.rooms) apartment_index
        kitchen_area := add_to_index db.indices.kitchen_area (.vint apt.kitchen_area) apartment_index
        balconies := add_to_index db.indices.balconies (.vint apt.balconies) apartment_index
        metro := add_to_index db.indices.metro apt.metro apartment_index } }

/-- The loading loop of `load_from_file`: records are coerced and committed
one at a time, in input order; the first failing record aborts the loop,
leaving the records before it committed. Returns the success flag and the
final state. -/
def loadLoop : List RawRecord → DB → Bool × DB
  | [], db => (true, db)
  | r :: rs, db =>
    match coerceRecord r with
    | none => (false, db)
    | some apt => loadLoop rs (add_apartment db apt)

/-- `ApartmentDatabase.load_from_file`, with JSON parsing (an excluded
collaborator) already done: clear the store and all indices, then run the
loading loop. Note the clearing happens before any validation, so the
previous state is discarded even when a record later fails. -/
def load_from_file (recs : List RawRecord) (_db : DB) : Bool × DB :=
  loadLoop recs emptyDB

/-- `ApartmentDatabase._get_index_for_field` (`self._indices.get(field)`). -/
def get_index_for_field (idx : Indices) (field : String) : Option Table :=
  if field = "total_area" then some idx.total_area
  else if field = "rooms" then some idx.rooms
  else if field = "kitchen_area" then some idx.kitchen_area
  else if field = "balconies" then some idx.balconies
  else if field = "metro" then some idx.metro
  else none

/-- Whether a field name is one of the five searchable attributes. -/
def isSearchableField (field : String) : Bool :=
  field = "total_area" || field = "rooms" || field = "kitchen_area" ||
    field = "balconies" || field = "metro"

/-- The value a stored record holds for a searchable attribute. -/
def attrVal (apt : Apartment) (field : String) : Option Value :=
  if field = "total_area" then some (.vint apt.total_area)
  else if field = "rooms" then some (.vint apt.rooms)
  else if field = "kitchen_area" then some (.vint apt.kitchen_area)
  else if field = "balconies" then some (.vint apt.balconies)
  else if field = "metro" then some apt.metro
  else none

/-- The identifier bucket `index[attribute].get(value, set())`, empty also
when the attribute itself is unknown. -/
def bucket (db : DB) (field : String) (v : Value) : Finset Nat :=
  match get_index_for_field db.indices field with
  | none => ∅
  | some tbl => (assocFind v tbl).getD ∅

/-- One iteration of the search loop: an unrecognized field is skipped
(`continue`); otherwise the criterion's bucket seeds the running set
(as a copy) or is intersected/unioned into it ('AND' intersects, anything
else unions, matching the bare `else` in the source). -/
def searchStep (db : DB) (operator : String) (acc : Option (Finset Nat))
    (c : String × Value) : Option (Finset Nat) :=
  match get_index_for_field db.indices c.1 with
  | none => acc
  | some tbl =>
    let current := (assocFind c.2 tbl).getD ∅
    match acc with
    | none => some current
    | some s => some (if operator = "AND" then s ∩ current else s ∪ current)

/-- The identifier set a (non-empty) search resolves to: the left-to-right
fold of the criteria, with both `result_indices is None` and an empty final
set collapsing to the empty set (the source returns `[]` for both). -/
def searchIdSet (db : DB) (criteria : List (String × Value))
    (operator : String) : Finset Nat :=
  (criteria.foldl (searchStep db operator) none).getD ∅

/-- `sorted(s)` for a Python set of naturals: its elements in ascending
order, computed as the filter of an enumeration that covers the set (this is
the unique strictly-sorted listing of the set, see `sortedSet_sorted` and
`mem_sortedSet`). -/
def sortedSet (s : Finset Nat) : List Nat :=
  (List.range (s.sup id + 1)).filter (fun i => i ∈ s)

/-- The surviving identifiers in ascending order (`sorted(result_indices)`). -/
def searchIds (db : DB) (criteria : List (String × Value))
    (operator : String) : List Nat :=
  sortedSet (searchIdSet db criteria operator)

/-- `[self._apartments[i] for i in ids]`, with `none` modelling the
`IndexError` raised on an out-of-range identifier. -/
def getRecords (apts : List Apartment) : List Nat → Option (List Apartment)
  | [] => some []
  | i :: rest => do
    let a ← apts[i]?
    let as ← getRecords apts rest
    pure (a :: as)

/-- `ApartmentDatabase.search`: empty criteria return `[]` immediately;
otherwise fold the criteria into an identifier set and materialize it in
ascending identifier order. -/
def search (db : DB) (criteria : List (String × Value))
    (operator : String) : Option (List Apartment) :=
  if criteria.isEmpty then some []
  else getRecords db.apartments (searchIds db criteria operator)

/-- Materialization of an identifier set in ascending order, used to state
the AND/OR decomposition properties. -/
def materialize (db : DB) (s : Finset Nat) : Option (List Apartment) :=
  getRecords db.apartments (sortedSet s)

/-- The apartments a load commits: the coercions of the longest front
segment of the input in which every record coerces. When every record is
valid this is the whole input; when one fails, these are exactly the records
the aborted loop already committed. -/
def coercedFront (recs : List RawRecord) : List Apartment :=
  (recs.takeWhile (fun r => (coerceRecord r).isSome)).filterMap coerceRecord

/-- Index/store mutual consistency (§8 of the spec): every stored position
is in the bucket of each of its attribute values and in no other bucket of
that attribute. -/
def IndexConsistent (db : DB) : Prop :=
  ∀ p apt, db.apartments[p]? = some apt →
    ∀ f av, attrVal apt f = some av →
      p ∈ bucket db f av ∧ ∀ v, v ≠ av → p ∉ bucket db f v

/-- Every identifier in every bucket points inside the store. -/
def BucketsBounded (db : DB) : Prop :=
  ∀ f v i, i ∈ bucket db f v → i < db.apartments.length

/-!
### Operational model of `search` with reference semantics

Python sets are heap objects: the dict values of `self._indices[...]` are
references. `search` seeds its running set with `current_indices.copy()` and
then mutates the running set in place (`&=` / `|=`). To settle the frame
property this aliasing is made explicit: an `OpDB` stores buckets as *cell
numbers* into a heap of sets, the copy allocates a fresh cell, and the
in-place updates write only to that cell.
-/

/-- One inverted-index table under reference semantics: attribute value to
heap cell number. -/
abbrev OpTable := List (Value × Nat)

/-- The engine state with Python's set references explicit. -/
structure OpDB where
  apartments : List Apartment
  total_area : OpTable
  rooms : OpTable
  kitchen_area : OpTable
  balconies : OpTable
  metro : OpTable
  heap : List (Finset Nat)
deriving DecidableEq

/-- `_get_index_for_field` on the operational state. -/
def get_op_index (db : OpDB) (field : String) : Option OpTable :=
  if field = "total_area" then some db.total_area
  else if field = "rooms" then some db.rooms
  else if field = "kitchen_area" then some db.kitchen_area
  else if field = "balconies" then some db.balconies
  else if field = "metro" then some db.metro
  else none

/-- Dereference a heap cell (out-of-range cells read as empty). -/
def readCell (heap : List (Finset Nat)) (cid : Nat) : Finset Nat :=
  (heap[cid]?).getD ∅

/-- The search loop under reference semantics. The running result is a cell
number: seeding appends a fresh cell holding a copy of the bucket's
contents; `&=` / `|=` write back only to that running cell. -/
def opSearchLoop (db : OpDB) (operator : String) :
    List (String × Value) → Option Nat → List (Finset Nat) →
      Option Nat × List (Finset Nat)
  | [], res, heap => (res, heap)
  | c :: rest, res, heap =>
    match get_op_index db c.1 with
    | none => opSearchLoop db operator rest res heap
    | some tbl =>
      let current : Finset Nat :=
        match assocFind c.2 tbl with
        | some cid => readCell heap cid
        | none => ∅
      match res with
      | none => opSearchLoop db operator rest (some heap.length) (heap ++ [current])
      | some rc =>
          opSearchLoop db operator rest (some rc)
            (heap.set rc (if operator = "AND" then readCell heap rc ∩ current
                          else readCell heap rc ∪ current))

/-- `ApartmentDatabase.search` under reference semantics: returns the result
list and the state left behind (same store and tables; possibly one more
heap cell, the discarded running set). -/
def opSearch (db : OpDB) (criteria : List (String × Value))
    (operator : String) : Option (List Apartment) × OpDB :=
  if criteria.isEmpty then (some [], db)
  else
    let rh := opSearchLoop db operator criteria none db.heap
    let db' : OpDB := { db with heap := rh.2 }
    match rh.1 with
    | none => (some [], db')
    | some rc => (getRecords db'.apartments (sortedSet (readCell rh.2 rc)), db')

/-- A bucket's contents under reference semantics. -/
def opBucket (db : OpDB) (field : String) (v : Value) : Finset Nat :=
  match get_op_index db field with
  | none => ∅
  | some tbl =>
    match assocFind v tbl with
    | some cid => readCell db.heap cid
    | none => ∅

/-- Every cell number stored in a table points inside the heap (true of
every state the engine itself builds). -/
abbrev OpCellsValid (db : OpDB) : Prop :=
  ∀ tbl ∈ [db.total_area, db.rooms, db.kitchen_area, db.balconies, db.metro],
    ∀ p ∈ tbl, p.2 < db.heap.length

/-- A small concrete operational state (one record, consistent cells),
used to witness the frame theorem. -/
def opDbSmall : OpDB :=
  { apartments := [⟨60, 2, 10, 2, .vstr "A"⟩]
    total_area := [(.vint 60, 0)]
    rooms := [(.vint 2, 1)]
    kitchen_area := [(.vint 10, 2)]
    balconies := [(.vint 2, 3)]
    metro := [(.vstr "A", 4)]
    heap := [{0}, {0}, {0}, {0}, {0}] }

/-- The spec's concrete four-record seed scenario (metro names shortened to
"A" / "P"; only equality on them matters). -/
def seedRecs : List RawRecord :=
  [ ⟨some (.vint 75), some (.vint 3), some (.vint 12), some (.vint 1), some (.vstr "A")⟩
  , ⟨some (.vint 45), some (.vint 1), some (.vint 9), some (.vint 1), some (.vstr "P")⟩
  , ⟨some (.vint 60), some (.vint 2), some (.vint 10), some (.vint 2), some (.vstr "A")⟩
  , ⟨some (.vint 100), some (.vint 4), some (.vint 15), some (.vint 2), some (.vstr "P")⟩ ]

/-- The engine after loading the seed scenario. -/
def dbSeed : DB := (load_from_file seedRecs emptyDB).2

/-- A valid raw record. -/
def recGood : RawRecord :=
  ⟨some (.vint 75), some (.vint 3), some (.vint 12), some (.vint 1), some (.vstr "A")⟩

/-- A raw record missing the required `rooms` key. -/
def recMissingRooms : RawRecord :=
  ⟨some (.vint 45), none, some (.vint 9), some (.vint 1), some (.vstr "P")⟩

/-- A raw record whose `metro` is the empty string (not a non-empty station
name, so the spec's validation condition calls it invalid). -/
def recEmptyMetro : RawRecord :=
  ⟨some (.vint 50), some (.vint 2), some (.vint 8), some (.vint 0), some (.vstr "")⟩

/-- An engine holding one committed record. -/
def dbOne : DB := (load_from_file [recGood] emptyDB).2

/-! ### Helper lemmas -/

lemma mem_sortedSet {s : Finset Nat} {i : Nat} : i ∈ sortedSet s ↔ i ∈ s := by
  unfold sortedSet
  simp only [List.mem_filter, List.mem_range, decide_eq_true_eq]
  constructor
  · exact fun h => h.2
  · intro h
    refine ⟨?_, h⟩
    have hle : i ≤ s.sup id := Finset.le_sup (f := id) h
    omega

lemma sortedSet_sorted (s : Finset Nat) : List.Sorted (· < ·) (sortedSet s) :=
  List.Pairwise.sublist (List.filter_sublist _) (List.pairwise_lt_range _)

lemma sortedSet_empty : sortedSet (∅ : Finset Nat) = [] := by
  unfold sortedSet
  simp

lemma assocFind_add_to_index_self (tbl : Table) (k : Value) (i : Nat) :
    assocFind k (add_to_index tbl k i) = some (insert i ((assocFind k tbl).getD ∅)) := by
  induction tbl with
  | nil => simp [add_to_index, assocFind]
  | cons hd tl ih =>
    obtain ⟨k', s⟩ := hd
    by_cases h : k' = k
    · simp [add_to_index, assocFind, h]
    · simp [add_to_index, assocFind, h, ih]

lemma assocFind_add_to_index_ne (tbl : Table) {k k' : Value} (i : Nat) (h : k' ≠ k) :
    assocFind k' (add_to_index tbl k i) = assocFind k' tbl := by
  have hkk : ¬k = k' := fun he => h he.symm
  induction tbl with
  | nil => simp [add_to_index, assocFind, hkk]
  | cons hd tl ih =>
    obtain ⟨k'', s⟩ := hd
    by_cases hk : k'' = k
    · subst hk
      simp [add_to_index, assocFind, hkk]
    · simp [add_to_index, assocFind, hk, ih]

/-- Effect of `_add_to_index` on the bucket read back for an arbitrary value:
the inserted position joins exactly the bucket of the inserted key. -/
lemma bucketTable_add (tbl : Table) (k v : Value) (i : Nat) :
    (assocFind v (add_to_index tbl k i)).getD ∅ =
      if k = v then insert i ((assocFind v tbl).getD ∅)
      else (assocFind v tbl).getD ∅ := by
  by_cases h : k = v
  · subst h
    simp [assocFind_add_to_index_self]
  · simp [h, assocFind_add_to_index_ne tbl i (fun he => h he.symm)]

/-- Effect of `_add_apartment` on a single bucket: the new position joins the
bucket matching each of the new record's attribute values; all other buckets
are untouched. -/
lemma bucket_add_apartment (db : DB) (apt : Apartment) (f : String) (v : Value) :
    bucket (add_apartment db apt) f v =
      if attrVal apt f = some v then insert db.apartments.length (bucket db f v)
      else bucket db f v := by
  unfold bucket get_index_for_field add_apartment attrVal
  dsimp only
  split_ifs <;> simp_all [bucketTable_add]

lemma bucket_emptyDB (f : String) (v : Value) : bucket emptyDB f v = ∅ := by
  unfold bucket get_index_for_field emptyDB
  dsimp only
  split_ifs <;> simp [assocFind]

lemma bucketsBounded_empty : BucketsBounded emptyDB := by
  intro f v i hi
  simp [bucket_emptyDB] at hi

lemma indexConsistent_empty : IndexConsistent emptyDB := by
  intro p apt hp
  simp [emptyDB] at hp

lemma apartments_add_apartment (db : DB) (apt : Apartment) :
    (add_apartment db apt).apartments = db.apartments ++ [apt] := rfl

lemma length_add_apartment (db : DB) (apt : Apartment) :
    (add_apartment db apt).apartments.length = db.apartments.length + 1 := by
  simp [add_apartment]

lemma bucketsBounded_add (db : DB) (apt : Apartment) (hb : BucketsBounded db) :
    BucketsBounded (add_apartment db apt) := by
  intro f v i hi
  rw [bucket_add_apartment] at hi
  rw [length_add_apartment]
  split at hi
  · rcases Finset.mem_insert.1 hi with h | h
    · omega
    · have := hb f v i h
      omega
  · have := hb f v i hi
    omega

lemma indexConsistent_add (db : DB) (apt : Apartment)
    (hb : BucketsBounded db) (hc : IndexConsistent db) :
    IndexConsistent (add_apartment db apt) := by
  intro p apt' hp f av hav
  rw [apartments_add_apartment] at hp
  rcases Nat.lt_trichotomy p db.apartments.length with hlt | heq | hgt
  · rw [List.getElem?_append, if_pos hlt] at hp
    obtain ⟨h1, h2⟩ := hc p apt' hp f av hav
    constructor
    · rw [bucket_add_apartment]
      split
      · exact Finset.mem_insert_of_mem h1
      · exact h1
    · intro v hv
      rw [bucket_add_apartment]
      split
      · intro hmem
        rcases Finset.mem_insert.1 hmem with h | h
        · omega
        · exact h2 v hv h
      · exact h2 v hv
  · subst heq
    rw [List.getElem?_concat_length] at hp
    injection hp with hp
    subst hp
    constructor
    · rw [bucket_add_apartment, if_pos hav]
      exact Finset.mem_insert_self _ _
    · intro v hv
      rw [bucket_add_apartment, if_neg]
      · intro hmem
        have := hb f v _ hmem
        omega
      · intro hcond
        rw [hav] at hcond
        injection hcond with hcond
        exact hv hcond.symm
  · rw [List.getElem?_eq_none (by simp; omega)] at hp
    exact absurd hp (by simp)

lemma loadLoop_invariant (recs : List RawRecord) :
    ∀ db : DB, BucketsBounded db → IndexConsistent db →
      BucketsBounded (loadLoop recs db).2 ∧ IndexConsistent (loadLoop recs db).2 := by
  induction recs with
  | nil =>
    intro db hb hc
    exact ⟨hb, hc⟩
  | cons r rs ih =>
    intro db hb hc
    cases hcr : coerceRecord r with
    | none =>
      simp only [loadLoop, hcr]
      exact ⟨hb, hc⟩
    | some apt =>
      simp only [loadLoop, hcr]
      exact ih _ (bucketsBounded_add _ _ hb) (indexConsistent_add _ _ hb hc)

lemma loadLoop_characterization (recs : List RawRecord) :
    ∀ db : DB,
      ((loadLoop recs db).1 = true ↔ ∀ r ∈ recs, (coerceRecord r).isSome) ∧
      (loadLoop recs db).2 = (coercedFront recs).foldl add_apartment db := by
  induction recs with
  | nil =>
    intro db
    simp [loadLoop, coercedFront]
  | cons r rs ih =>
    intro db
    cases hcr : coerceRecord r with
    | none =>
      simp [loadLoop, hcr, coercedFront]
    | some apt =>
      have h1 := (ih (add_apartment db apt)).1
      have h2 := (ih (add_apartment db apt)).2
      simp only [loadLoop, hcr]
      constructor
      · rw [h1]
        simp [hcr]
      · rw [h2]
        simp [coercedFront, List.takeWhile, hcr]

lemma get_index_isSome (idx : Indices) (f : String) :
    (get_index_for_field idx f).isSome = isSearchableField f := by
  unfold get_index_for_field isSearchableField
  split_ifs <;> simp_all

lemma searchStep_unrecognized (db : DB) (op : String) (acc : Option (Finset Nat))
    (c : String × Value) (h : isSearchableField c.1 = false) :
    searchStep db op acc c = acc := by
  unfold searchStep
  cases hgi : get_index_for_field db.indices c.1 with
  | none => rfl
  | some tbl =>
    have h2 := get_index_isSome db.indices c.1
    rw [hgi, h] at h2
    simp at h2

lemma searchStep_searchable (db : DB) (op : String) (acc : Option (Finset Nat))
    (f : String) (v : Value) (h : isSearchableField f = true) :
    searchStep db op acc (f, v) =
      some (match acc with
            | none => bucket db f v
            | some s => if op = "AND" then s ∩ bucket db f v else s ∪ bucket db f v) := by
  unfold searchStep bucket
  cases hgi : get_index_for_field db.indices f with
  | none =>
    have h2 := get_index_isSome db.indices f
    rw [hgi, h] at h2
    simp at h2
  | some tbl =>
    cases acc <;> rfl

lemma searchIdSet_single (db : DB) (f : String) (v : Value) (op : String)
    (h : isSearchableField f = true) :
    searchIdSet db [(f, v)] op = bucket db f v := by
  unfold searchIdSet
  rw [List.foldl_cons, searchStep_searchable db op none f v h]
  rfl

lemma searchIdSet_pair (db : DB) (f₁ f₂ : String) (v₁ v₂ : Value) (op : String)
    (h₁ : isSearchableField f₁ = true) (h₂ : isSearchableField f₂ = true) :
    searchIdSet db [(f₁, v₁), (f₂, v₂)] op =
      if op = "AND" then bucket db f₁ v₁ ∩ bucket db f₂ v₂
      else bucket db f₁ v₁ ∪ bucket db f₂ v₂ := by
  unfold searchIdSet
  rw [List.foldl_cons, searchStep_searchable db op none f₁ v₁ h₁]
  rw [List.foldl_cons, searchStep_searchable db op _ f₂ v₂ h₂]
  rfl

lemma search_eq_materialize (db : DB) (criteria : List (String × Value))
    (op : String) (h : criteria ≠ []) :
    search db criteria op = materialize db (searchIdSet db criteria op) := by
  unfold search materialize searchIds
  rw [if_neg (fun hh => h (List.isEmpty_iff.1 hh))]

lemma foldl_searchStep_bounded (db : DB) (op : String) (hb : BucketsBounded db) :
    ∀ (criteria : List (String × Value)) (acc : Option (Finset Nat)),
      (∀ s, acc = some s → ∀ i ∈ s, i < db.apartments.length) →
      ∀ s, criteria.foldl (searchStep db op) acc = some s →
        ∀ i ∈ s, i < db.apartments.length := by
  intro criteria
  induction criteria with
  | nil =>
    intro acc hacc s hs
    exact hacc s hs
  | cons c rest ih =>
    intro acc hacc s hs
    rw [List.foldl_cons] at hs
    refine ih _ ?_ s hs
    intro s' hstep i hi
    unfold searchStep at hstep
    cases hgi : get_index_for_field db.indices c.1 with
    | none =>
      rw [hgi] at hstep
      exact hacc s' hstep i hi
    | some tbl =>
      rw [hgi] at hstep
      have hcur : ∀ j ∈ (assocFind c.2 tbl).getD ∅, j < db.apartments.length := by
        intro j hj
        apply hb c.1 c.2
        unfold bucket
        rw [hgi]
        exact hj
      cases acc with
      | none =>
        dsimp at hstep
        injection hstep with hstep
        subst hstep
        exact hcur i hi
      | some s₀ =>
        dsimp at hstep
        injection hstep with hstep
        subst hstep
        have hs₀ : ∀ j ∈ s₀, j < db.apartments.length := hacc s₀ rfl
        by_cases hop : op = "AND"
        · rw [if_pos hop] at hi
          exact hs₀ i (Finset.mem_inter.1 hi).1
        · rw [if_neg hop] at hi
          rcases Finset.mem_union.1 hi with h | h
          · exact hs₀ i h
          · exact hcur i h

lemma searchIdSet_bounded (db : DB) (hb : BucketsBounded db)
    (criteria : List (String × Value)) (op : String) :
    ∀ i ∈ searchIdSet db criteria op, i < db.apartments.length := by
  intro i hi
  unfold searchIdSet at hi
  cases hres : criteria.foldl (searchStep db op) none with
  | none =>
    rw [hres] at hi
    simp at hi
  | some s =>
    rw [hres] at hi
    exact foldl_searchStep_bounded db op hb criteria none (by simp) s hres i hi

lemma getRecords_isSome (apts : List Apartment) :
    ∀ l : List Nat, (∀ i ∈ l, i < apts.length) → (getRecords apts l).isSome := by
  intro l
  induction l with
  | nil =>
    intro _
    simp [getRecords]
  | cons i rest ih =>
    intro h
    have hi : i < apts.length := h i (by simp)
    have hrest := ih (fun j hj => h j (by simp [hj]))
    unfold getRecords
    rw [List.getElem?_eq_getElem hi]
    cases hgr : getRecords apts rest with
    | none =>
      rw [hgr] at hrest
      simp at hrest
    | some xs =>
      simp [hgr, Option.bind]

lemma foldl_searchStep_filter (db : DB) (op : String) :
    ∀ (criteria : List (String × Value)) (acc : Option (Finset Nat)),
      criteria.foldl (searchStep db op) acc =
        (criteria.filter fun p => isSearchableField p.1).foldl (searchStep db op) acc := by
  intro criteria
  induction criteria with
  | nil =>
    intro acc
    rfl
  | cons c rest ih =>
    intro acc
    rw [List.foldl_cons]
    cases hsf : isSearchableField c.1 with
    | true =>
      rw [List.filter_cons_of_pos (by simp [hsf]), List.foldl_cons, ih]
    | false =>
      rw [List.filter_cons_of_neg (by simp [hsf]),
        searchStep_unrecognized db op acc c hsf, ih]

lemma search_filter (db : DB) (criteria : List (String × Value)) (op : String) :
    search db criteria op =
      search db (criteria.filter fun p => isSearchableField p.1) op := by
  by_cases hc : criteria.isEmpty
  · rw [List.isEmpty_iff.1 hc]
    rfl
  · by_cases hf : (criteria.filter fun p => isSearchableField p.1).isEmpty
    · have hset : searchIdSet db criteria op = ∅ := by
        unfold searchIdSet
        rw [foldl_searchStep_filter, List.isEmpty_iff.1 hf]
        rfl
      unfold search
      rw [if_neg (by simp [hc]), if_pos hf]
      unfold searchIds
      rw [hset, sortedSet_empty]
      rfl
    · have hset : searchIdSet db criteria op =
          searchIdSet db (criteria.filter fun p => isSearchableField p.1) op := by
        unfold searchIdSet
        rw [foldl_searchStep_filter]
      unfold search searchIds
      rw [if_neg (by simp [hc]), if_neg (by simp [hf]), hset]

lemma assocFind_mem {β : Type} (k : Value) (b : β) :
    ∀ tbl : List (Value × β), assocFind k tbl = some b → (k, b) ∈ tbl := by
  intro tbl
  induction tbl with
  | nil =>
    intro h
    simp [assocFind] at h
  | cons hd tl ih =>
    obtain ⟨k', b'⟩ := hd
    intro h
    unfold assocFind at h
    by_cases hk : k' = k
    · rw [if_pos hk] at h
      injection h with h
      subst h
      subst hk
      simp
    · rw [if_neg hk] at h
      simp [ih h]

lemma get_op_index_mem (db : OpDB) (f : String) (tbl : OpTable)
    (h : get_op_index db f = some tbl) :
    tbl ∈ [db.total_area, db.rooms, db.kitchen_area, db.balconies, db.metro] := by
  unfold get_op_index at h
  split_ifs at h <;> (injection h with h; subst h; simp)

lemma opSearchLoop_frame (db : OpDB) (op : String) :
    ∀ (cs : List (String × Value)) (res : Option Nat) (heap : List (Finset Nat)),
      db.heap.length ≤ heap.length →
      (∀ rc, res = some rc → db.heap.length ≤ rc) →
      db.heap.length ≤ (opSearchLoop db op cs res heap).2.length ∧
      (∀ i, i < db.heap.length → (opSearchLoop db op cs res heap).2[i]? = heap[i]?) := by
  intro cs
  induction cs with
  | nil =>
    intro res heap hlen _
    exact ⟨hlen, fun i _ => rfl⟩
  | cons c rest ih =>
    intro res heap hlen hres
    unfold opSearchLoop
    cases hgi : get_op_index db c.1 with
    | none =>
      exact ih res heap hlen hres
    | some tbl =>
      cases res with
      | none =>
        dsimp only
        obtain ⟨l1, l2⟩ := ih (some heap.length) (heap ++ [_])
          (by simp; omega) (fun rc hrc => by injection hrc with hrc; omega)
        refine ⟨l1, fun i hi => ?_⟩
        rw [l2 i hi, List.getElem?_append, if_pos (lt_of_lt_of_le hi hlen)]
      | some rc =>
        have hrc := hres rc rfl
        dsimp only
        obtain ⟨l1, l2⟩ := ih (some rc) (heap.set rc _)
          (by simp [hlen]) (fun rc' hrc' => by injection hrc' with hrc'; omega)
        refine ⟨l1, fun i hi => ?_⟩
        rw [l2 i hi, List.getElem?_set_ne (by omega)]

lemma opSearch_state (db : OpDB) (criteria : List (String × Value)) (op : String) :
    (opSearch db criteria op).2 =
      if criteria.isEmpty then db
      else { db with heap := (opSearchLoop db op criteria none db.heap).2 } := by
  unfold opSearch
  split
  · rfl
  · cases h : (opSearchLoop db op criteria none db.heap).1 <;> simp [h]

/-! ### Claim theorems -/

/-- **C1** (amended). `load` succeeds exactly when every input record has all
five required keys and its four integer fields coerce to integers; the
`metro` value is taken as-is and never validated (an empty string is
accepted). On a failure the engine is *not* left unchanged: the prior
contents were cleared on entry, and the final state holds exactly the
coerced records of the longest valid front segment of the input, i.e. the
records committed before the first invalid one. -/
theorem load_validation_and_partial_commit (recs : List RawRecord) (db₀ : DB) :
    ((load_from_file recs db₀).1 = true ↔ ∀ r ∈ recs, (coerceRecord r).isSome) ∧
    (load_from_file recs db₀).2 = (coercedFront recs).foldl add_apartment emptyDB :=
  loadLoop_characterization recs emptyDB

/-- **C2** (counterexample). Mixing the recognized criterion `rooms = 2` with
an unrecognized one under AND does *not* intersect with the empty set: the
source skips the unrecognized criterion, so the query returns the `rooms = 2`
record instead of the empty sequence the claim requires. -/
theorem unrecognized_and_counterexample :
    search dbSeed [("rooms", .vint 2), ("unknown_field", .vint 1)] "AND"
        = some [⟨60, 2, 10, 2, .vstr "A"⟩] ∧
    search dbSeed [("rooms", .vint 2), ("unknown_field", .vint 1)] "AND"
        ≠ some [] := by
  decide

/-- **C2** (amended). A criterion whose attribute is not one of the five
searchable attributes is skipped entirely — removed from the fold, raising
no error — so a query behaves exactly as if its unrecognized criteria were
absent; in particular `search({"unknown_field": v})` returns an empty
sequence, and mixing recognized with unrecognized criteria under AND returns
the recognized criteria's result alone. -/
theorem search_skips_unrecognized (db : DB) (criteria : List (String × Value))
    (op : String) :
    search db criteria op =
        search db (criteria.filter fun p => isSearchableField p.1) op ∧
    ∀ v : Value, search db [("unknown_field", v)] op = some [] := by
  refine ⟨search_filter db criteria op, fun v => ?_⟩
  rw [search_eq_materialize db _ op (by simp)]
  have hset : searchIdSet db [("unknown_field", v)] op = ∅ := by
    unfold searchIdSet
    rw [List.foldl_cons, searchStep_unrecognized db op none ("unknown_field", v) rfl]
    rfl
  rw [hset]
  unfold materialize
  rw [sortedSet_empty]
  rfl

/-- **C3**. After any load (any input, any prior state), the store and the
five indices are mutually consistent: every stored position `p` is a member
of `index[a][record.a]` for each searchable attribute `a`, and of no other
value's bucket for that attribute. `search` performs no state mutation (see
the frame theorem for C10), so the invariant holds in every reachable
state. -/
theorem load_index_consistent (recs : List RawRecord) (db₀ : DB) :
    IndexConsistent (load_from_file recs db₀).2 :=
  (loadLoop_invariant recs emptyDB bucketsBounded_empty indexConsistent_empty).2

/-- **C4**. For recognized criteria, an AND query over two criteria returns
exactly the intersection of the two single-criterion identifier sets,
materialized in ascending identifier order. -/
theorem search_AND_is_intersection (db : DB) (f₁ f₂ : String) (v₁ v₂ : Value)
    (h₁ : isSearchableField f₁ = true) (h₂ : isSearchableField f₂ = true) :
    search db [(f₁, v₁), (f₂, v₂)] "AND" =
      materialize db
        (searchIdSet db [(f₁, v₁)] "AND" ∩ searchIdSet db [(f₂, v₂)] "AND") := by
  rw [search_eq_materialize db _ _ (by simp),
    searchIdSet_pair db f₁ f₂ v₁ v₂ "AND" h₁ h₂, if_pos rfl,
    searchIdSet_single db f₁ v₁ "AND" h₁, searchIdSet_single db f₂ v₂ "AND" h₂]

/-- **C5**. For recognized criteria, an OR query over two criteria returns
exactly the union of the two single-criterion identifier sets, materialized
in ascending identifier order. -/
theorem search_OR_is_union (db : DB) (f₁ f₂ : String) (v₁ v₂ : Value)
    (h₁ : isSearchableField f₁ = true) (h₂ : isSearchableField f₂ = true) :
    search db [(f₁, v₁), (f₂, v₂)] "OR" =
      materialize db
        (searchIdSet db [(f₁, v₁)] "OR" ∪ searchIdSet db [(f₂, v₂)] "OR") := by
  rw [search_eq_materialize db _ _ (by simp),
    searchIdSet_pair db f₁ f₂ v₁ v₂ "OR" h₁ h₂, if_neg (by decide),
    searchIdSet_single db f₁ v₁ "OR" h₁, searchIdSet_single db f₂ v₂ "OR" h₂]

/-- **C6**. The identifiers a search materializes are strictly ascending
(positional identifiers are assigned in insertion order, so this is also
the original insertion order), and the returned records are exactly the
records at those identifiers. -/
theorem search_results_ascending (db : DB) (criteria : List (String × Value))
    (op : String) :
    List.Sorted (· < ·) (searchIds db criteria op) ∧
    search db criteria op =
      (if criteria.isEmpty then some []
       else getRecords db.apartments (searchIds db criteria op)) :=
  ⟨by unfold searchIds; exact sortedSet_sorted _, rfl⟩

/-- **C7**. In every engine state and for every operator, searching with
empty criteria returns an empty sequence. -/
theorem search_empty_criteria (db : DB) (op : String) :
    search db [] op = some [] := rfl

/-- **C8**. Loading the same valid input twice yields the same search
results as loading it once: `load` clears all state first, so the final
state does not depend on the state before the call at all. -/
theorem load_idempotent_search (recs : List RawRecord)
    (_hok : (load_from_file recs emptyDB).1 = true)
    (criteria : List (String × Value)) (op : String) :
    search (load_from_file recs emptyDB).2 criteria op =
      search (load_from_file recs (load_from_file recs emptyDB).2).2 criteria op :=
  rfl

/-- **C9**. After a load, every identifier in every bucket is strictly below
the store's size, and therefore the record-materialization step of `search`
never hits the out-of-range (`NotFound`/`IndexError`) branch: `search`
always returns a result list. -/
theorem search_identifiers_in_range (recs : List RawRecord) (db₀ : DB) :
    BucketsBounded (load_from_file recs db₀).2 ∧
    ∀ (criteria : List (String × Value)) (op : String),
      (search (load_from_file recs db₀).2 criteria op).isSome := by
  have hb := (loadLoop_invariant recs emptyDB bucketsBounded_empty indexConsistent_empty).1
  refine ⟨hb, fun criteria op => ?_⟩
  unfold search
  split
  · rfl
  · apply getRecords_isSome
    intro i hi
    unfold searchIds at hi
    exact searchIdSet_bounded _ hb criteria op i (mem_sortedSet.1 hi)

/-- **C10**. `search` is read-only: under reference semantics, the state it
leaves behind has the same record store, the same five index tables, and
every pre-existing heap cell — hence every bucket — unchanged. The first
criterion's bucket is copied into a fresh cell before the in-place
intersections/unions, which only ever write to that fresh cell. -/
theorem search_read_only (db : OpDB) (criteria : List (String × Value))
    (op : String) (hv : OpCellsValid db) :
    (opSearch db criteria op).2.apartments = db.apartments ∧
    (opSearch db criteria op).2.total_area = db.total_area ∧
    (opSearch db criteria op).2.rooms = db.rooms ∧
    (opSearch db criteria op).2.kitchen_area = db.kitchen_area ∧
    (opSearch db criteria op).2.balconies = db.balconies ∧
    (opSearch db criteria op).2.metro = db.metro ∧
    (∀ i, i < db.heap.length → (opSearch db criteria op).2.heap[i]? = db.heap[i]?) ∧
    (∀ f v, opBucket (opSearch db criteria op).2 f v = opBucket db f v) := by
  rw [opSearch_state]
  by_cases hce : criteria.isEmpty
  · rw [if_pos hce]
    exact ⟨rfl, rfl, rfl, rfl, rfl, rfl, fun i _ => rfl, fun f v => rfl⟩
  · rw [if_neg hce]
    have hframe := (opSearchLoop_frame db op criteria none db.heap le_rfl
      (fun rc hrc => by injection hrc)).2
    refine ⟨rfl, rfl, rfl, rfl, rfl, rfl, fun i hi => hframe i hi, fun f v => ?_⟩
    unfold opBucket
    have hgi : get_op_index { db with heap := (opSearchLoop db op criteria none db.heap).2 } f
        = get_op_index db f := rfl
    rw [hgi]
    cases hfi : get_op_index db f with
    | none => rfl
    | some tbl =>
      dsimp only
      cases hfv : assocFind v tbl with
      | none => rfl
      | some cid =>
        have hcid : cid < db.heap.length :=
          hv tbl (get_op_index_mem db f tbl hfi) (v, cid) (assocFind_mem v cid tbl hfv)
        dsimp only
        unfold readCell
        rw [hframe cid hcid]

/-- **C1** (counterexample). First conjunct: a record whose `metro` is the
empty string loads successfully, though the claim's validation condition
(metro must be a non-empty string) demands a `ValidationError`. Second and
third conjuncts: loading a record with a missing key over a non-empty engine
fails, and leaves the store changed (cleared), though the claim demands the
state be unchanged from before the call. -/
theorem load_partial_commit_counterexample :
    (load_from_file [recEmptyMetro] emptyDB).1 = true ∧
    (load_from_file [recMissingRooms] dbOne).1 = false ∧
    (load_from_file [recMissingRooms] dbOne).2.apartments ≠ dbOne.apartments := by
  decide

/-! ### Witnesses -/

theorem load_index_consistent_witness :
    0 ∈ bucket (load_from_file seedRecs emptyDB).2 "rooms" (.vint 3) ∧
    ∀ v, v ≠ Value.vint 3 → 0 ∉ bucket (load_from_file seedRecs emptyDB).2 "rooms" v :=
  load_index_consistent seedRecs emptyDB 0 ⟨75, 3, 12, 1, .vstr "A"⟩ (by decide)
    "rooms" (.vint 3) (by decide)

theorem search_AND_is_intersection_witness :
    search dbSeed [("balconies", .vint 2), ("metro", .vstr "P")] "AND" =
      materialize dbSeed (searchIdSet dbSeed [("balconies", .vint 2)] "AND" ∩
        searchIdSet dbSeed [("metro", .vstr "P")] "AND") :=
  search_AND_is_intersection dbSeed "balconies" "metro" (.vint 2) (.vstr "P")
    (by decide) (by decide)

theorem search_OR_is_union_witness :
    search dbSeed [("total_area", .vint 75), ("balconies", .vint 2)] "OR" =
      materialize dbSeed (searchIdSet dbSeed [("total_area", .vint 75)] "OR" ∪
        searchIdSet dbSeed [("balconies", .vint 2)] "OR") :=
  search_OR_is_union dbSeed "total_area" "balconies" (.vint 75) (.vint 2)
    (by decide) (by decide)

theorem load_idempotent_search_witness :
    search (load_from_file seedRecs emptyDB).2 [("metro", .vstr "A")] "AND" =
      search (load_from_file seedRecs (load_from_file seedRecs emptyDB).2).2
        [("metro", .vstr "A")] "AND" :=
  load_idempotent_search seedRecs (by decide) [("metro", .vstr "A")] "AND"

theorem search_identifiers_in_range_witness :
    2 < (load_from_file seedRecs emptyDB).2.apartments.length ∧
    (search (load_from_file seedRecs emptyDB).2 [("metro", .vstr "A")] "AND").isSome :=
  ⟨(search_identifiers_in_range seedRecs emptyDB).1 "rooms" (.vint 2) 2 (by decide),
   (search_identifiers_in_range seedRecs emptyDB).2 [("metro", .vstr "A")] "AND"⟩

theorem search_read_only_witness :
    (opSearch opDbSmall [("rooms", .vint 2), ("metro", .vstr "A")] "AND").2.apartments
        = opDbSmall.apartments ∧
    ∀ f v, opBucket
        (opSearch opDbSmall [("rooms", .vint 2), ("metro", .vstr "A")] "AND").2 f v
        = opBucket opDbSmall f v :=
  ⟨(search_read_only opDbSmall [("rooms", .vint 2), ("metro", .vstr "A")] "AND"
      (by decide)).1,
   (search_read_only opDbSmall [("rooms", .vint 2), ("metro", .vstr "A")] "AND"
      (by decide)).2.2.2.2.2.2.2⟩

/-- Validation of the embedding against the spec's concrete scenario (§8):
the four example queries return exactly the records the spec lists (records
0 and 2; record 2; record 3; records 0, 2 and 3). -/
theorem seed_scenario_eval :
    (load_from_file seedRecs emptyDB).1 = true ∧
    search dbSeed [("metro", .vstr "A")] "AND"
        = some [⟨75, 3, 12, 1, .vstr "A"⟩, ⟨60, 2, 10, 2, .vstr "A"⟩] ∧
    search dbSeed [("rooms", .vint 2)] "AND"
        = some [⟨60, 2, 10, 2, .vstr "A"⟩] ∧
    search dbSeed [("balconies", .vint 2), ("metro", .vstr "P")] "AND"
        = some [⟨100, 4, 15, 2, .vstr "P"⟩] ∧
    search dbSeed [("total_area", .vint 75), ("balconies", .vint 2)] "OR"
        = some [⟨75, 3, 12, 1, .vstr "A"⟩, ⟨60, 2, 10, 2, .vstr "A"⟩,
            ⟨100, 4, 15, 2, .vstr "P"⟩] := by
  decide

end InvIdx
